import Mathlib

/-!
Verification development for the SurveyKong repository.

The pipeline orchestration that the specification describes is implemented in
the frontend application (src/unnamed/part_004, the React `App` component):
its state hooks form the pipeline state, its handlers (`handleSubmit`,
`handleUpdateSpec`, `handleApprove`, `handleUpdateQuestions`,
`handleApproveSurvey`, `handleUpdateCohort`, `handleApproveCohort`), its
`useEffect` blocks and the `WorkflowPane` navigation form the transitions.
We embed that component as an explicit state machine: each asynchronous
fetch is modelled atomically, with its outcome supplied as an oracle value
carried by the event, and the `useEffect` passes that react to a
`currentStep` change are folded into the navigation transitions (they only
fire on such changes, since their other dependencies change only while the
corresponding step is already active).  Loading flags are `true` only while
a fetch is in flight, hence always `false` at the atomic-step boundaries,
but the guards reading them are kept exactly as in the source.

The backend resilience layer (circuit breaker, retry policy) is not present
under src/ (only its documentation is); it is modelled from the spec where
needed, with each such definition marked `Modelled from the spec:`.
-/

namespace SurveyKong

/-- The five workflow stages, from `WORKFLOW_STEPS` in part_004 (keys
`framing`, `survey`, `cohort`, `distribution`, `analysis`). -/
inductive Step
  | framing
  | survey
  | cohort
  | distribution
  | analysis
deriving DecidableEq, Repr

/-- Index of a stage in the fixed order of `WORKFLOW_STEPS`. -/
def stageIdx : Step → Nat
  | .framing => 0
  | .survey => 1
  | .cohort => 2
  | .distribution => 3
  | .analysis => 4

/-- The successor stage in the fixed order (identity at the last stage). -/
def stageSucc : Step → Step
  | .framing => .survey
  | .survey => .cohort
  | .cohort => .distribution
  | .distribution => .analysis
  | .analysis => .analysis

/-- `interface Question` of part_004. -/
structure Question where
  text : String
  type : String
  options : Option (List String)
  required : Bool
deriving DecidableEq, Repr

/-- `interface SurveySpec` of part_004. -/
structure SurveySpec where
  title : String
  description : String
  questions : List Question
  target_audience : String
  targeted_completion_time : String
  targeted_number_of_responses : Nat
  hypothesis_tested : List String
deriving DecidableEq, Repr

/-- `interface Survey` of part_004. -/
structure Survey where
  title : String
  description : String
  questions : List Question
  spec_id : Option String
deriving DecidableEq, Repr

/-- `interface Cohort` of part_004. -/
structure Cohort where
  target_audience : String
  inclusion_criteria : List String
  exclusion_criteria : List String
  estimated_pool_size : Option String
  recruitment_notes : Option String
deriving DecidableEq, Repr

/-- Outcome of one `fetch` call, supplied as an oracle: `ok` is a parsed
JSON body from a response with `res.ok`, `err` the message of the thrown
error (either the `Error: status` string or a network failure). -/
inductive FetchOutcome (α : Type)
  | ok (data : α)
  | err (msg : String)
deriving DecidableEq, Repr

/-- One HTTP request issued to the backend, recording the endpoint and the
exact request body the component serializes (the executor's input). -/
inductive Call
  | surveySpecGen (question : String)
  | surveySpecUpdate (survey_spec : SurveySpec) (changes : String)
  | surveyQuestionsGen (spec : SurveySpec)
  | surveyQuestionsUpdate (survey_spec : SurveySpec) (survey : Survey) (changes : String)
  | cohortGen (spec : SurveySpec)
  | cohortUpdate (survey_spec : SurveySpec) (cohort : Cohort) (changes : String)
deriving DecidableEq, Repr

/-- An artifact payload, tagged by the stage slot it is stored in. -/
inductive ArtifactVal
  | spec (s : SurveySpec)
  | survey (sv : Survey)
  | cohort (c : Cohort)
deriving DecidableEq, Repr

/-- The `useState` hooks of the `App` component in part_004, in source
order. -/
structure AppState where
  question : String
  result : Option SurveySpec
  survey : Option Survey
  loading : Bool
  loadingSurvey : Bool
  updateLoading : Bool
  changes : String
  error : Option String
  updateError : Option String
  currentStep : Step
  questionChanges : String
  updateQuestionsLoading : Bool
  updateQuestionsError : Option String
  cohort : Option Cohort
  loadingCohort : Bool
  cohortChanges : String
  updateCohortLoading : Bool
  updateCohortError : Option String
deriving DecidableEq, Repr

/-- The initial values of all `useState` hooks. -/
def initState : AppState where
  question := ""
  result := none
  survey := none
  loading := false
  loadingSurvey := false
  updateLoading := false
  changes := ""
  error := none
  updateError := none
  currentStep := .framing
  questionChanges := ""
  updateQuestionsLoading := false
  updateQuestionsError := none
  cohort := none
  loadingCohort := false
  cohortChanges := ""
  updateCohortLoading := false
  updateCohortError := none

/-- Whitespace characters removed by JavaScript `String.prototype.trim`
(the ASCII subset, which covers every use in the component). -/
def isJsWhitespace (c : Char) : Bool :=
  c = ' ' || c = '\t' || c = '\n' || c = '\r' || c = '\x0b' || c = '\x0c'

/-- JavaScript `String.prototype.trim`: strip leading and trailing
whitespace. -/
def jsTrim (s : String) : String :=
  String.mk (((s.toList.dropWhile isJsWhitespace).reverse.dropWhile isJsWhitespace).reverse)

/-- Result of one atomic transition: the new hook state, the HTTP calls
issued during it, and the artifacts committed to state during it (each
`setResult`/`setSurvey`/`setCohort` with a freshly fetched payload). -/
structure StepOut where
  state : AppState
  calls : List Call
  produced : List ArtifactVal
deriving DecidableEq, Repr

/-- `handleSubmit` (part_004 lines 503-525): clears `result`, `survey` and
both error slots before the fetch, posts the research question, and stores
the returned spec (or the error message) when the call resolves. -/
def handleSubmit (s : AppState) (o : FetchOutcome SurveySpec) : StepOut :=
  let s1 : AppState :=
    { s with loading := true, result := none, survey := none,
             error := none, updateError := none }
  match o with
  | .ok data =>
      ⟨{ s1 with result := some data, loading := false },
       [Call.surveySpecGen s.question], [ArtifactVal.spec data]⟩
  | .err m =>
      ⟨{ s1 with error := some m, loading := false },
       [Call.surveySpecGen s.question], []⟩

/-- `handleUpdateSpec` (part_004 lines 527-550): no-op unless a spec exists
and the feedback text is nonempty after trimming; otherwise posts
`(survey_spec, changes)` and replaces the spec on success. -/
def handleUpdateSpec (s : AppState) (o : FetchOutcome SurveySpec) : StepOut :=
  match s.result with
  | none => ⟨s, [], []⟩
  | some sp =>
    if jsTrim s.changes = "" then ⟨s, [], []⟩
    else
      match o with
      | .ok data =>
          ⟨{ s with updateLoading := false, updateError := none,
                    result := some data, changes := "" },
           [Call.surveySpecUpdate sp s.changes], [ArtifactVal.spec data]⟩
      | .err m =>
          ⟨{ s with updateLoading := false, updateError := some m },
           [Call.surveySpecUpdate sp s.changes], []⟩

/-- `handleUpdateQuestions` (part_004 lines 556-580). -/
def handleUpdateQuestions (s : AppState) (o : FetchOutcome Survey) : StepOut :=
  match s.result, s.survey with
  | some sp, some sv =>
    if jsTrim s.questionChanges = "" then ⟨s, [], []⟩
    else
      match o with
      | .ok data =>
          ⟨{ s with updateQuestionsLoading := false, updateQuestionsError := none,
                    survey := some data, questionChanges := "" },
           [Call.surveyQuestionsUpdate sp sv s.questionChanges], [ArtifactVal.survey data]⟩
      | .err m =>
          ⟨{ s with updateQuestionsLoading := false, updateQuestionsError := some m },
           [Call.surveyQuestionsUpdate sp sv s.questionChanges], []⟩
  | _, _ => ⟨s, [], []⟩

/-- `handleUpdateCohort` (part_004 lines 586-610). -/
def handleUpdateCohort (s : AppState) (o : FetchOutcome Cohort) : StepOut :=
  match s.result, s.cohort with
  | some sp, some ch =>
    if jsTrim s.cohortChanges = "" then ⟨s, [], []⟩
    else
      match o with
      | .ok data =>
          ⟨{ s with updateCohortLoading := false, updateCohortError := none,
                    cohort := some data, cohortChanges := "" },
           [Call.cohortUpdate sp ch s.cohortChanges], [ArtifactVal.cohort data]⟩
      | .err m =>
          ⟨{ s with updateCohortLoading := false, updateCohortError := some m },
           [Call.cohortUpdate sp ch s.cohortChanges], []⟩
  | _, _ => ⟨s, [], []⟩

/-- `generateSurveyQuestions` (part_004 lines 463-481): posts the framing
spec (`result`) and stores the returned survey, or sets the shared `error`
slot on failure. -/
def generateSurveyQuestions (s : AppState) (o : FetchOutcome Survey) : StepOut :=
  match s.result with
  | none => ⟨s, [], []⟩
  | some sp =>
    match o with
    | .ok data =>
        ⟨{ s with survey := some data, loadingSurvey := false },
         [Call.surveyQuestionsGen sp], [ArtifactVal.survey data]⟩
    | .err m =>
        ⟨{ s with error := some m, loadingSurvey := false },
         [Call.surveyQuestionsGen sp], []⟩

/-- `generateCohortCriteria` (part_004 lines 483-501): posts the framing
spec (`result`) and stores the returned cohort. -/
def generateCohortCriteria (s : AppState) (o : FetchOutcome Cohort) : StepOut :=
  match s.result with
  | none => ⟨s, [], []⟩
  | some sp =>
    match o with
    | .ok data =>
        ⟨{ s with cohort := some data, loadingCohort := false },
         [Call.cohortGen sp], [ArtifactVal.cohort data]⟩
    | .err m =>
        ⟨{ s with error := some m, loadingCohort := false },
         [Call.cohortGen sp], []⟩

/-- The reset effect (part_004 lines 428-447): when `currentStep` becomes
`framing`, every hook except `question` is set back to its initial value. -/
def resetFraming (s : AppState) : AppState :=
  { s with result := none, survey := none, error := none, updateError := none,
           loading := false, loadingSurvey := false, updateLoading := false,
           changes := "", questionChanges := "", updateQuestionsLoading := false,
           updateQuestionsError := none, cohort := none, loadingCohort := false,
           cohortChanges := "", updateCohortLoading := false,
           updateCohortError := none }

/-- The `useEffect` pass run when `currentStep` has just changed
(part_004 lines 428-461): the framing reset, or the survey / cohort
generation effect when its guard holds. -/
def stepEffects (s : AppState) (oS : FetchOutcome Survey) (oC : FetchOutcome Cohort) :
    StepOut :=
  if s.currentStep = .framing then ⟨resetFraming s, [], []⟩
  else if s.currentStep = .survey ∧ s.result.isSome ∧ s.survey.isNone ∧ ¬s.loadingSurvey then
    generateSurveyQuestions s oS
  else if s.currentStep = .cohort ∧ s.result.isSome ∧ s.cohort.isNone ∧ ¬s.loadingCohort then
    generateCohortCriteria s oC
  else ⟨s, [], []⟩

/-- `setCurrentStep` followed by the dependent effects.  A `setState` with
the current value is a React bail-out: no re-render, no effect run. -/
def setStep (s : AppState) (t : Step) (oS : FetchOutcome Survey) (oC : FetchOutcome Cohort) :
    StepOut :=
  if t = s.currentStep then ⟨s, [], []⟩
  else stepEffects { s with currentStep := t } oS oC

/-- A dummy oracle for a generation that the transition cannot trigger
(entering `survey` never runs the cohort effect and conversely). -/
def unusedSurvey : FetchOutcome Survey := .err "unused"

/-- See `unusedSurvey`. -/
def unusedCohort : FetchOutcome Cohort := .err "unused"

/-- `handleApprove` (part_004 lines 552-554). -/
def handleApprove (s : AppState) (oS : FetchOutcome Survey) : StepOut :=
  setStep s .survey oS unusedCohort

/-- `handleApproveSurvey` (part_004 lines 582-584). -/
def handleApproveSurvey (s : AppState) (oC : FetchOutcome Cohort) : StepOut :=
  setStep s .cohort unusedSurvey oC

/-- `handleApproveCohort` (part_004 lines 612-614). -/
def handleApproveCohort (s : AppState) : StepOut :=
  setStep s .distribution unusedSurvey unusedCohort

/-- User-interface events of the `App` component.  Events that may perform
a fetch carry the oracle outcome of that fetch. -/
inductive Event
  | setQuestion (q : String)
  | setChanges (c : String)
  | setQuestionChanges (c : String)
  | setCohortChanges (c : String)
  | submit (o : FetchOutcome SurveySpec)
  | updateSpec (o : FetchOutcome SurveySpec)
  | approve (oS : FetchOutcome Survey)
  | updateQuestions (o : FetchOutcome Survey)
  | approveSurvey (oC : FetchOutcome Cohort)
  | updateCohort (o : FetchOutcome Cohort)
  | approveCohort
  | stepClick (t : Step) (oS : FetchOutcome Survey) (oC : FetchOutcome Cohort)
deriving DecidableEq, Repr

/-- The transition function of the embedded component. -/
def stepFn (s : AppState) : Event → StepOut
  | .setQuestion q => ⟨{ s with question := q }, [], []⟩
  | .setChanges c => ⟨{ s with changes := c }, [], []⟩
  | .setQuestionChanges c => ⟨{ s with questionChanges := c }, [], []⟩
  | .setCohortChanges c => ⟨{ s with cohortChanges := c }, [], []⟩
  | .submit o => handleSubmit s o
  | .updateSpec o => handleUpdateSpec s o
  | .approve oS => handleApprove s oS
  | .updateQuestions o => handleUpdateQuestions s o
  | .approveSurvey oC => handleApproveSurvey s oC
  | .updateCohort o => handleUpdateCohort s o
  | .approveCohort => handleApproveCohort s
  | .stepClick t oS oC => setStep s t oS oC

/-- Whether the control for an event is rendered and not disabled in the
state `s`: the `WorkflowPane` button `disabled` expression (part_004 lines
319-329) for navigation, and the rendering/`disabled` conditions of each
form control for the rest. -/
def enabledB (s : AppState) : Event → Bool
  | .setQuestion _ => s.currentStep = .framing
  | .setChanges _ => s.currentStep = .framing ∧ s.result.isSome
  | .setQuestionChanges _ => s.currentStep = .survey ∧ ¬s.loadingSurvey ∧ s.survey.isSome
  | .setCohortChanges _ => s.currentStep = .cohort ∧ ¬s.loadingCohort ∧ s.cohort.isSome
  | .submit _ => s.currentStep = .framing ∧ ¬s.loading ∧ s.question ≠ ""
  | .updateSpec _ =>
      s.currentStep = .framing ∧ s.result.isSome ∧ ¬s.updateLoading ∧ jsTrim s.changes ≠ ""
  | .approve _ => s.currentStep = .framing ∧ s.result.isSome
  | .updateQuestions _ =>
      s.currentStep = .survey ∧ ¬s.loadingSurvey ∧ s.survey.isSome ∧
        ¬s.updateQuestionsLoading ∧ jsTrim s.questionChanges ≠ ""
  | .approveSurvey _ => s.currentStep = .survey ∧ ¬s.loadingSurvey ∧ s.survey.isSome
  | .updateCohort _ =>
      s.currentStep = .cohort ∧ ¬s.loadingCohort ∧ s.cohort.isSome ∧
        ¬s.updateCohortLoading ∧ jsTrim s.cohortChanges ≠ ""
  | .approveCohort => s.currentStep = .cohort ∧ ¬s.loadingCohort ∧ s.cohort.isSome
  | .stepClick t _ _ =>
      ¬((t = .survey ∧ s.result.isNone) ∨ (t = .cohort ∧ s.survey.isNone) ∨
        (t = .distribution ∧ s.cohort.isNone) ∨ (t = .analysis ∧ s.cohort.isNone))

/-- States reachable from the initial render through enabled events. -/
inductive Reachable : AppState → Prop
  | init : Reachable initState
  | step (s : AppState) (e : Event) (hs : Reachable s) (he : enabledB s e = true) :
      Reachable (stepFn s e).state

/-- Run a trace of events from the initial state, accumulating the calls
issued along the way. -/
def runTrace (es : List Event) : AppState × List Call :=
  es.foldl (fun acc e =>
    let r := stepFn acc.1 e
    (r.state, acc.2 ++ r.calls)) (initState, [])

/-- Whether every event of the trace is enabled in the state where it
fires. -/
def validTraceB (es : List Event) : Bool :=
  (es.foldl (fun acc e => ((stepFn acc.1 e).state, acc.2 && enabledB acc.1 e))
    (initState, true)).2

/-- Whether an event is one of the three Approve actions. -/
def isApproveEvent : Event → Bool
  | .approve _ => true
  | .approveSurvey _ => true
  | .approveCohort => true
  | _ => false

/-- Per-stage revision counters in the sense of the spec: the revision of a
stage's artifact is the number of artifacts committed to that stage's slot
since the last full reset. -/
structure RevCounters where
  specRev : Nat
  surveyRev : Nat
  cohortRev : Nat
deriving DecidableEq, Repr

/-- How many artifacts of each kind a transition committed. -/
def prodCount (l : List ArtifactVal) : RevCounters :=
  ⟨(l.filter (fun a => match a with | .spec _ => true | _ => false)).length,
   (l.filter (fun a => match a with | .survey _ => true | _ => false)).length,
   (l.filter (fun a => match a with | .cohort _ => true | _ => false)).length⟩

/-- Advance the revision counters across one transition: a transition that
enters `framing` resets them (all artifacts are cleared); otherwise every
committed artifact is a new revision of its stage. -/
def revStep (s : AppState) (e : Event) (rv : RevCounters) : RevCounters :=
  let out := stepFn s e
  if s.currentStep ≠ .framing ∧ out.state.currentStep = .framing then ⟨0, 0, 0⟩
  else
    ⟨rv.specRev + (prodCount out.produced).specRev,
     rv.surveyRev + (prodCount out.produced).surveyRev,
     rv.cohortRev + (prodCount out.produced).cohortRev⟩

/-- The artifact stored for a stage in a state (the `distribution` and
`analysis` stages have no artifact slot). -/
def artifactOf (s : AppState) : Step → Option ArtifactVal
  | .framing => s.result.map ArtifactVal.spec
  | .survey => s.survey.map ArtifactVal.survey
  | .cohort => s.cohort.map ArtifactVal.cohort
  | .distribution => none
  | .analysis => none

/-- The artifact payload a call takes as its primary input (the main
object serialized into the request body, besides the feedback text). -/
def primaryInput : Call → Option ArtifactVal
  | .surveySpecGen _ => none
  | .surveySpecUpdate sp _ => some (.spec sp)
  | .surveyQuestionsGen sp => some (.spec sp)
  | .surveyQuestionsUpdate _ sv _ => some (.survey sv)
  | .cohortGen sp => some (.spec sp)
  | .cohortUpdate _ ch _ => some (.cohort ch)

/-- Modelled from the spec: the circuit-breaker states `closed`, `open`,
`half_open` (§3).  The backend module implementing the breaker is not in
the repository snapshot; only its documentation is.  `open` is a Lean
keyword, hence `opened`. -/
inductive BreakerState
  | closed
  | opened
  | halfOpen
deriving DecidableEq, Repr

/-- Modelled from the spec: the per-dependency breaker record of §3, with
timestamps as naturals. -/
structure CircuitBreaker where
  state : BreakerState
  consecutiveFailures : Nat
  openedAt : Option Nat
  failureThreshold : Nat
  openDuration : Nat
deriving DecidableEq, Repr

/-- Modelled from the spec: a freshly created breaker (closed, no
failures). -/
def initBreaker (threshold duration : Nat) : CircuitBreaker :=
  ⟨.closed, 0, none, threshold, duration⟩

/-- Modelled from the spec (§4.2): `on_failure()` increments
`consecutive_failures`; if the threshold is reached (or the breaker is
`half_open`), it transitions to `open` and stamps `opened_at = now`. -/
def onFailure (cb : CircuitBreaker) (now : Nat) : CircuitBreaker :=
  let cf := cb.consecutiveFailures + 1
  if cb.failureThreshold ≤ cf ∨ cb.state = .halfOpen then
    { cb with state := .opened, consecutiveFailures := cf, openedAt := some now }
  else
    { cb with consecutiveFailures := cf }

/-- Modelled from the spec (§4.2): `on_success()` records success; in
`half_open` it transitions to `closed` and zeroes `consecutive_failures`. -/
def onSuccess (cb : CircuitBreaker) : CircuitBreaker :=
  match cb.state with
  | .halfOpen => { cb with state := .closed, consecutiveFailures := 0, openedAt := none }
  | _ => { cb with consecutiveFailures := 0 }

/-- Modelled from the spec (§4.2, §8): `allow()` advises whether a call may
proceed.  In `open`, once `now ≥ opened_at + open_duration` the breaker
moves to `half_open` granting the single trial call; further `allow()`
calls in `half_open` return `false` until the trial's outcome is
recorded. -/
def allow (cb : CircuitBreaker) (now : Nat) : Bool × CircuitBreaker :=
  match cb.state with
  | .closed => (true, cb)
  | .opened =>
    match cb.openedAt with
    | some t =>
        if t + cb.openDuration ≤ now then (true, { cb with state := .halfOpen })
        else (false, cb)
    | none => (false, cb)
  | .halfOpen => (false, cb)

/-- Apply a sequence of `on_failure()` calls at the given timestamps. -/
def applyFailures (cb : CircuitBreaker) (ts : List Nat) : CircuitBreaker :=
  ts.foldl onFailure cb

/-- Modelled from the spec (§6): the typed error kinds of the inference
dependency. -/
inductive ErrorKind
  | rateLimited
  | timeout
  | serverError
  | badRequest
deriving DecidableEq, Repr

/-- Modelled from the spec (§6): `rate_limited`, `timeout`, `server_error`
are retryable; `bad_request` is not. -/
def retryableB : ErrorKind → Bool
  | .badRequest => false
  | _ => true

/-- Modelled from the spec (§4.3): outcome of `RetryPolicy.execute`, with
the attempt count each kind of outcome carries. -/
inductive RetryResult (α : Type)
  | ok (value : α) (attempts : Nat)
  | failed (kind : ErrorKind) (attempts : Nat)
  | retriesExhausted (attemptCount : Nat) (lastError : ErrorKind)
deriving DecidableEq, Repr

/-- Modelled from the spec (§4.3): the retry loop.  `idx` is the number of
attempts already made, `fuel` the attempts remaining.  A non-retryable
error fails immediately; a retryable one retries while attempts remain and
otherwise surfaces `RetriesExhaustedError` with the attempt count and last
failure.  (The `fuel = 0` base case is unreachable for `max_attempts ≥ 1`.) -/
def executeAux (op : Nat → Except ErrorKind α) (retryable : ErrorKind → Bool) :
    Nat → Nat → RetryResult α
  | idx, 0 => .retriesExhausted idx .serverError
  | idx, fuel + 1 =>
    match op idx with
    | .ok v => .ok v (idx + 1)
    | .error e =>
      if retryable e then
        match fuel with
        | 0 => .retriesExhausted (idx + 1) e
        | f + 1 => executeAux op retryable (idx + 1) (f + 1)
      else .failed e (idx + 1)

/-- Modelled from the spec (§4.3): `RetryPolicy.execute` with
`max_attempts` set to `maxAttempts`, where `op i` is the outcome of the
`i`-th attempt (zero-based). -/
def execute (op : Nat → Except ErrorKind α) (maxAttempts : Nat) : RetryResult α :=
  executeAux op retryableB 0 maxAttempts

/-- A concrete survey spec used by concrete counterexamples and
witnesses. -/
def sp0 : SurveySpec := ⟨"T", "D", [], "aud", "5m", 10, []⟩

/-- A second, distinct concrete survey spec. -/
def sp1 : SurveySpec := ⟨"T2", "D2", [], "aud", "4m", 20, []⟩

/-- A concrete survey artifact. -/
def sv0 : Survey := ⟨"S", "SD", [⟨"Q1", "text", none, true⟩], none⟩

/-- A concrete cohort artifact. -/
def ch0 : Cohort := ⟨"aud", ["adult"], [], none, none⟩

/-- A trace that generates a spec and then enters the survey stage through
the workflow pane, never pressing any Approve button. -/
def c1Trace : List Event :=
  [.setQuestion "q", .submit (.ok sp0), .stepClick .survey (.ok sv0) unusedCohort]

/-- A trace that walks forward to the cohort stage and then navigates back
to the survey stage (not framing). -/
def c2Trace : List Event :=
  [.setQuestion "q", .submit (.ok sp0), .stepClick .survey (.ok sv0) unusedCohort,
   .stepClick .cohort unusedSurvey (.ok ch0), .stepClick .survey unusedSurvey unusedCohort]

/-- A trace reaching the survey stage with both the spec and the survey
artifact present. -/
def c3Trace : List Event := [.setQuestion "q", .submit (.ok sp0), .approve (.ok sv0)]

/-- A trace that generates a spec at the framing stage. -/
def c5Trace : List Event := [.setQuestion "q", .submit (.ok sp0)]

/-- A trace that works forward and then navigates back to framing. -/
def c6Trace : List Event :=
  [.setQuestion "q", .submit (.ok sp0), .approve (.ok sv0),
   .stepClick .framing unusedSurvey unusedCohort]

/-- The state reached by entering a question, generating a spec, and
approving it (which generates the survey): survey stage, both artifacts
present. -/
def sSurveyStage : AppState :=
  { initState with question := "q", result := some sp0, survey := some sv0,
                   currentStep := .survey }

/-- First characters of `jsTrim`: an all-whitespace string trims to the
empty string. -/
theorem jsTrim_eq_empty_of_all_ws (str : String)
    (h : str.toList.all isJsWhitespace = true) : jsTrim str = "" := by
  have h1 : str.data.dropWhile isJsWhitespace = [] := by
    rw [List.dropWhile_eq_nil_iff]
    intro x hx
    exact List.all_eq_true.mp h x hx
  simp only [jsTrim, String.toList, h1, List.reverse_nil, List.dropWhile_nil]

/-- Structural invariant of reachable states: an artifact of a later stage
exists only with the framing spec present, and at the framing stage the
survey and cohort slots are always empty (the reset effect has run). -/
def Inv (s : AppState) : Prop :=
  (s.survey.isSome = true → s.result.isSome = true) ∧
  (s.cohort.isSome = true → s.result.isSome = true) ∧
  (s.currentStep = .framing → s.survey = none ∧ s.cohort = none)

/-- Entering a stage whose generation guard fails issues no call and leaves
every hook except `currentStep` unchanged. -/
theorem setStep_survey_noGen (s : AppState) (oS : FetchOutcome Survey)
    (oC : FetchOutcome Cohort) (hcur : s.currentStep ≠ .survey)
    (hng : s.survey ≠ none ∨ s.loadingSurvey = true) :
    setStep s .survey oS oC = ⟨{ s with currentStep := .survey }, [], []⟩ := by
  simp only [setStep, stepEffects]
  rw [if_neg (fun hh => hcur hh.symm), if_neg (by simp), if_neg ?_, if_neg (by simp)]
  rintro ⟨-, -, h3, h4⟩
  rcases hng with hng | hng
  · rcases hsv : s.survey with _ | sv
    · exact hng hsv
    · simp [hsv] at h3
  · simp [hng] at h4

/-- Entering the survey stage with the spec present, no survey artifact and
no generation in flight runs the generation effect. -/
theorem setStep_survey_gen (s : AppState) (oS : FetchOutcome Survey)
    (oC : FetchOutcome Cohort) (hcur : s.currentStep ≠ .survey)
    (hsv : s.survey = none) (hls : s.loadingSurvey = false)
    (hres : s.result.isSome = true) :
    setStep s .survey oS oC = generateSurveyQuestions { s with currentStep := .survey } oS := by
  simp only [setStep, stepEffects]
  rw [if_neg (fun hh => hcur hh.symm), if_neg (by simp),
    if_pos (by simp [hres, hsv, hls])]

/-- Cohort analogue of `setStep_survey_noGen`. -/
theorem setStep_cohort_noGen (s : AppState) (oS : FetchOutcome Survey)
    (oC : FetchOutcome Cohort) (hcur : s.currentStep ≠ .cohort)
    (hng : s.cohort ≠ none ∨ s.loadingCohort = true) :
    setStep s .cohort oS oC = ⟨{ s with currentStep := .cohort }, [], []⟩ := by
  simp only [setStep, stepEffects]
  rw [if_neg (fun hh => hcur hh.symm), if_neg (by simp), if_neg (by simp), if_neg ?_]
  rintro ⟨-, -, h3, h4⟩
  rcases hng with hng | hng
  · rcases hco : s.cohort with _ | co
    · exact hng hco
    · simp [hco] at h3
  · simp [hng] at h4

/-- Cohort analogue of `setStep_survey_gen`. -/
theorem setStep_cohort_gen (s : AppState) (oS : FetchOutcome Survey)
    (oC : FetchOutcome Cohort) (hcur : s.currentStep ≠ .cohort)
    (hco : s.cohort = none) (hlc : s.loadingCohort = false)
    (hres : s.result.isSome = true) :
    setStep s .cohort oS oC = generateCohortCriteria { s with currentStep := .cohort } oC := by
  simp only [setStep, stepEffects]
  rw [if_neg (fun hh => hcur hh.symm), if_neg (by simp), if_neg (by simp),
    if_pos (by simp [hres, hco, hlc])]

/-- Navigation preserves the invariant. -/
theorem setStep_inv (s : AppState) (t : Step) (oS : FetchOutcome Survey)
    (oC : FetchOutcome Cohort) (hi : Inv s) : Inv (setStep s t oS oC).state := by
  obtain ⟨hi1, hi2, hi3⟩ := hi
  obtain ⟨q, res, sv, l, ls, ul, chg, er, uer, cs, qc, uql, uqe, co, lc, cc, ucl, uce⟩ := s
  simp only [setStep]
  split
  · exact ⟨hi1, hi2, hi3⟩
  · next hne =>
    simp only [stepEffects, generateSurveyQuestions, generateCohortCriteria]
    split
    · next hfr =>
      exact ⟨by simp [resetFraming], by simp [resetFraming], fun _ => by simp [resetFraming]⟩
    · next hfr =>
      split
      · next hguard =>
        obtain ⟨ht, hres, hsvn, hls⟩ := hguard
        rcases res with _ | sp
        · simp at hres
        · rcases oS with d | m
          · exact ⟨fun _ => rfl, fun h => hi2 h, fun h => absurd h hfr⟩
          · exact ⟨fun h => hi1 h, fun h => hi2 h, fun h => absurd h hfr⟩
      · split
        · next hguard =>
          obtain ⟨ht, hres, hcon, hlc⟩ := hguard
          rcases res with _ | sp
          · simp at hres
          · rcases oC with d | m
            · exact ⟨fun h => hi1 h, fun _ => rfl, fun h => absurd h hfr⟩
            · exact ⟨fun h => hi1 h, fun h => hi2 h, fun h => absurd h hfr⟩
        · exact ⟨fun h => hi1 h, fun h => hi2 h, fun h => absurd h hfr⟩

/-- Every enabled transition preserves the invariant. -/
theorem inv_preserved (s : AppState) (e : Event) (he : enabledB s e = true)
    (hi : Inv s) : Inv (stepFn s e).state := by
  obtain ⟨hi1, hi2, hi3⟩ := hi
  cases e with
  | setQuestion q => exact ⟨hi1, hi2, hi3⟩
  | setChanges c => exact ⟨hi1, hi2, hi3⟩
  | setQuestionChanges c => exact ⟨hi1, hi2, hi3⟩
  | setCohortChanges c => exact ⟨hi1, hi2, hi3⟩
  | submit o =>
      simp only [enabledB, decide_eq_true_eq] at he
      have hco : s.cohort = none := (hi3 he.1).2
      cases o with
      | ok d =>
          simp only [stepFn, handleSubmit]
          exact ⟨by simp, by simp [hco], fun _ => ⟨rfl, hco⟩⟩
      | err m =>
          simp only [stepFn, handleSubmit]
          exact ⟨by simp, by simp [hco], fun _ => ⟨rfl, hco⟩⟩
  | updateSpec o =>
      rcases hres : s.result with _ | sp
      · simp only [stepFn, handleUpdateSpec, hres]
        exact ⟨hi1, hi2, hi3⟩
      · cases o with
        | ok d =>
          simp only [stepFn, handleUpdateSpec, hres]
          split
          · exact ⟨hi1, hi2, hi3⟩
          · exact ⟨by simp, by simp, fun h => hi3 h⟩
        | err m =>
          simp only [stepFn, handleUpdateSpec, hres]
          split
          · exact ⟨hi1, hi2, hi3⟩
          · exact ⟨fun _ => rfl, fun _ => rfl, fun h => hi3 h⟩
  | approve oS => exact setStep_inv s .survey oS unusedCohort ⟨hi1, hi2, hi3⟩
  | updateQuestions o =>
      simp only [enabledB, decide_eq_true_eq] at he
      rcases hres : s.result with _ | sp
      · simp only [stepFn, handleUpdateQuestions, hres]
        exact ⟨hi1, hi2, hi3⟩
      · rcases hsv : s.survey with _ | sv
        · simp only [stepFn, handleUpdateQuestions, hres, hsv]
          exact ⟨hi1, hi2, hi3⟩
        · cases o with
          | ok d =>
            simp only [stepFn, handleUpdateQuestions, hres, hsv]
            split
            · exact ⟨hi1, hi2, hi3⟩
            · exact ⟨by simp [hres], by simp [hres],
                fun h => absurd h (by simp [he.1])⟩
          | err m =>
            simp only [stepFn, handleUpdateQuestions, hres, hsv]
            split
            · exact ⟨hi1, hi2, hi3⟩
            · exact ⟨fun _ => rfl, fun _ => rfl, fun h => absurd h (by simp [he.1])⟩
  | approveSurvey oC => exact setStep_inv s .cohort unusedSurvey oC ⟨hi1, hi2, hi3⟩
  | updateCohort o =>
      simp only [enabledB, decide_eq_true_eq] at he
      rcases hres : s.result with _ | sp
      · simp only [stepFn, handleUpdateCohort, hres]
        exact ⟨hi1, hi2, hi3⟩
      · rcases hco : s.cohort with _ | co
        · simp only [stepFn, handleUpdateCohort, hres, hco]
          exact ⟨hi1, hi2, hi3⟩
        · cases o with
          | ok d =>
            simp only [stepFn, handleUpdateCohort, hres, hco]
            split
            · exact ⟨hi1, hi2, hi3⟩
            · exact ⟨by simp [hres], by simp [hres],
                fun h => absurd h (by simp [he.1])⟩
          | err m =>
            simp only [stepFn, handleUpdateCohort, hres, hco]
            split
            · exact ⟨hi1, hi2, hi3⟩
            · exact ⟨fun _ => rfl, fun _ => rfl, fun h => absurd h (by simp [he.1])⟩
  | approveCohort => exact setStep_inv s .distribution unusedSurvey unusedCohort ⟨hi1, hi2, hi3⟩
  | stepClick t oS oC => exact setStep_inv s t oS oC ⟨hi1, hi2, hi3⟩

/-- Every reachable state satisfies the invariant. -/
theorem reachable_inv (s : AppState) (hr : Reachable s) : Inv s := by
  induction hr with
  | init => exact ⟨by simp [initState], by simp [initState], fun _ => ⟨rfl, rfl⟩⟩
  | step s e hs he ih => exact inv_preserved s e he ih

/-- Effects never move `currentStep`. -/
theorem stepEffects_state_currentStep (s : AppState) (oS : FetchOutcome Survey)
    (oC : FetchOutcome Cohort) :
    (stepEffects s oS oC).state.currentStep = s.currentStep := by
  simp only [stepEffects, generateSurveyQuestions, generateCohortCriteria]
  repeat' split
  all_goals rfl

/-- Navigation lands on the clicked step (also when React bails out on a
same-value set). -/
theorem setStep_state_currentStep (s : AppState) (t : Step) (oS : FetchOutcome Survey)
    (oC : FetchOutcome Cohort) :
    (setStep s t oS oC).state.currentStep = t := by
  simp only [setStep]
  split
  · next h => exact h.symm
  · exact stepEffects_state_currentStep _ _ _

/-- Any call issued by a navigation transition is a generation call for the
entered stage, gated on the framing spec's existence and the entered
stage's artifact being absent. -/
theorem setStep_calls_cases (s : AppState) (t : Step) (oS : FetchOutcome Survey)
    (oC : FetchOutcome Cohort) (c : Call) (hc : c ∈ (setStep s t oS oC).calls) :
    (∃ sp, s.result = some sp ∧ t = .survey ∧ s.survey = none ∧
      s.loadingSurvey = false ∧ c = .surveyQuestionsGen sp) ∨
    (∃ sp, s.result = some sp ∧ t = .cohort ∧ s.cohort = none ∧
      s.loadingCohort = false ∧ c = .cohortGen sp) := by
  obtain ⟨q, res, sv, l, ls, ul, chg, er, uer, cs, qc, uql, uqe, co, lc, cc, ucl, uce⟩ := s
  simp only [setStep] at hc
  split at hc
  · simp at hc
  · simp only [stepEffects, generateSurveyQuestions, generateCohortCriteria] at hc
    split at hc
    · simp at hc
    · split at hc
      · next hguard =>
        obtain ⟨ht, hres, hsvn, hls⟩ := hguard
        rcases res with _ | sp
        · simp at hc
        · rcases oS with d | m <;> simp at hc <;>
            exact Or.inl ⟨sp, rfl, ht, by simpa using hsvn, by simpa using hls, hc⟩
      · split at hc
        · next hguard =>
          obtain ⟨ht, hres, hcon, hlc⟩ := hguard
          rcases res with _ | sp
          · simp at hc
          · rcases oC with d | m <;> simp at hc <;>
              exact Or.inr ⟨sp, rfl, ht, by simpa using hcon, by simpa using hlc, hc⟩
        · simp at hc

/-- C1, counterexample: along a valid trace containing no Approve action at
all, the survey-design executor (`/api/survey/questions`) is nevertheless
invoked — entering the stage through the `WorkflowPane` is gated only on
the framing artifact's existence, not on its approval. -/
theorem c1_counterexample :
    validTraceB c1Trace = true ∧
    c1Trace.all (fun e => !isApproveEvent e) = true ∧
    Call.surveyQuestionsGen sp0 ∈ (runTrace c1Trace).2 := by decide

/-- C2, counterexample: a valid trace whose last transition moves
`current_stage` backwards from `cohort` to `survey` — a reachable backward
move whose target is not `framing`. -/
theorem c2_counterexample :
    validTraceB c2Trace = true ∧
    (runTrace (c2Trace.take 4)).1.currentStep = .cohort ∧
    (runTrace c2Trace).1.currentStep = .survey ∧
    stageIdx .survey < stageIdx .cohort ∧
    Step.survey ≠ Step.framing := by decide

/-- C3, counterexample: approving the survey stage advances to `cohort` and
invokes the cohort executor, but the request body carries the framing
`SurveySpec` (`result`), not the survey stage's own artifact. -/
theorem c3_counterexample :
    validTraceB c3Trace = true ∧
    (runTrace c3Trace).1.currentStep = .survey ∧
    (runTrace c3Trace).1.survey = some sv0 ∧
    (stepFn (runTrace c3Trace).1 (.approveSurvey (.ok ch0))).state.currentStep = .cohort ∧
    (stepFn (runTrace c3Trace).1 (.approveSurvey (.ok ch0))).calls = [Call.cohortGen sp0] ∧
    primaryInput (Call.cohortGen sp0) ≠ artifactOf (runTrace c3Trace).1 .survey := by decide

/-- C1 as amended: a later stage's executor can only be invoked once the
earlier stages' artifacts exist (status at least `awaiting_approval`) — the
survey executor only with the framing spec stored (and that spec is its
input), the cohort executor only with the survey artifact also present —
but existence, not approval, is the gate. -/
theorem c1_amended (s : AppState) (e : Event) (he : enabledB s e = true) :
    (∀ sp, Call.surveyQuestionsGen sp ∈ (stepFn s e).calls → s.result = some sp) ∧
    (∀ sp, Call.cohortGen sp ∈ (stepFn s e).calls →
      s.result = some sp ∧ s.survey.isSome = true) := by
  cases e with
  | setQuestion q => simp [stepFn]
  | setChanges c => simp [stepFn]
  | setQuestionChanges c => simp [stepFn]
  | setCohortChanges c => simp [stepFn]
  | submit o =>
      refine ⟨fun sp hmem => ?_, fun sp hmem => ?_⟩ <;>
        cases o <;> simp [stepFn, handleSubmit] at hmem
  | updateSpec o =>
      refine ⟨fun sp hmem => ?_, fun sp hmem => ?_⟩ <;>
      · simp only [stepFn, handleUpdateSpec] at hmem
        repeat' split at hmem
        all_goals simp at hmem
  | updateQuestions o =>
      refine ⟨fun sp hmem => ?_, fun sp hmem => ?_⟩ <;>
      · simp only [stepFn, handleUpdateQuestions] at hmem
        repeat' split at hmem
        all_goals simp at hmem
  | updateCohort o =>
      refine ⟨fun sp hmem => ?_, fun sp hmem => ?_⟩ <;>
      · simp only [stepFn, handleUpdateCohort] at hmem
        repeat' split at hmem
        all_goals simp at hmem
  | approve oS =>
      refine ⟨fun sp hmem => ?_, fun sp hmem => ?_⟩ <;>
        rcases setStep_calls_cases s .survey oS unusedCohort _ hmem with
          ⟨sp', h1, h2, h3, h4, h5⟩ | ⟨sp', h1, h2, h3, h4, h5⟩ <;>
        simp_all
  | approveSurvey oC =>
      simp only [enabledB, decide_eq_true_eq] at he
      refine ⟨fun sp hmem => ?_, fun sp hmem => ?_⟩ <;>
        rcases setStep_calls_cases s .cohort unusedSurvey oC _ hmem with
          ⟨sp', h1, h2, h3, h4, h5⟩ | ⟨sp', h1, h2, h3, h4, h5⟩ <;>
        simp_all
  | approveCohort =>
      refine ⟨fun sp hmem => ?_, fun sp hmem => ?_⟩ <;>
        rcases setStep_calls_cases s .distribution unusedSurvey unusedCohort _ hmem with
          ⟨sp', h1, h2, h3, h4, h5⟩ | ⟨sp', h1, h2, h3, h4, h5⟩ <;>
        simp_all
  | stepClick t oS oC =>
      simp only [enabledB, decide_eq_true_eq] at he
      refine ⟨fun sp hmem => ?_, fun sp hmem => ?_⟩ <;>
        rcases setStep_calls_cases s t oS oC _ hmem with
          ⟨sp', h1, h2, h3, h4, h5⟩ | ⟨sp', h1, h2, h3, h4, h5⟩
      · simp_all
      · simp_all
      · simp_all
      · subst h2
        refine ⟨by simp_all, ?_⟩
        rcases hsv : s.survey with _ | sv
        · exact absurd (Or.inr (Or.inl (by simp [hsv]))) he
        · simp

/-- C1 amended, witness. -/
theorem c1_amended_witness :
    (∀ sp, Call.surveyQuestionsGen sp ∈
        (stepFn { initState with result := some sp0 } (.approve (.ok sv0))).calls →
      ({ initState with result := some sp0 } : AppState).result = some sp) ∧
    (∀ sp, Call.cohortGen sp ∈
        (stepFn { initState with result := some sp0 } (.approve (.ok sv0))).calls →
      ({ initState with result := some sp0 } : AppState).result = some sp ∧
      ({ initState with result := some sp0 } : AppState).survey.isSome = true) :=
  c1_amended { initState with result := some sp0 } (.approve (.ok sv0)) (by decide)

/-- C2 as amended: the Approve actions advance `current_stage` exactly one
stage forward in the fixed order and never skip; every other operation
leaves `current_stage` unchanged — except `WorkflowPane` navigation, which
may set `current_stage` to any stage whose gating artifact exists
(backwards included; the framing target performs the full reset). -/
theorem c2_amended (s : AppState) :
    (∀ oS, enabledB s (.approve oS) = true →
      (stepFn s (.approve oS)).state.currentStep = stageSucc s.currentStep) ∧
    (∀ oC, enabledB s (.approveSurvey oC) = true →
      (stepFn s (.approveSurvey oC)).state.currentStep = stageSucc s.currentStep) ∧
    (enabledB s .approveCohort = true →
      (stepFn s .approveCohort).state.currentStep = stageSucc s.currentStep) ∧
    (∀ t oS oC, enabledB s (.stepClick t oS oC) = true →
      (stepFn s (.stepClick t oS oC)).state.currentStep = t ∧
      (t = .survey → s.result.isSome = true) ∧
      (t = .cohort → s.survey.isSome = true) ∧
      (t = .distribution ∨ t = .analysis → s.cohort.isSome = true)) ∧
    (∀ o, (stepFn s (.submit o)).state.currentStep = s.currentStep) ∧
    (∀ o, (stepFn s (.updateSpec o)).state.currentStep = s.currentStep) ∧
    (∀ o, (stepFn s (.updateQuestions o)).state.currentStep = s.currentStep) ∧
    (∀ o, (stepFn s (.updateCohort o)).state.currentStep = s.currentStep) := by
  refine ⟨fun oS he => ?_, fun oC he => ?_, fun he => ?_, fun t oS oC he => ?_,
          fun o => ?_, fun o => ?_, fun o => ?_, fun o => ?_⟩
  · simp only [enabledB, decide_eq_true_eq] at he
    rw [show stepFn s (.approve oS) = setStep s .survey oS unusedCohort from rfl,
      setStep_state_currentStep, he.1]
    rfl
  · simp only [enabledB, decide_eq_true_eq] at he
    rw [show stepFn s (.approveSurvey oC) = setStep s .cohort unusedSurvey oC from rfl,
      setStep_state_currentStep, he.1]
    rfl
  · simp only [enabledB, decide_eq_true_eq] at he
    rw [show stepFn s .approveCohort = setStep s .distribution unusedSurvey unusedCohort
      from rfl, setStep_state_currentStep, he.1]
    rfl
  · simp only [enabledB, decide_eq_true_eq] at he
    refine ⟨setStep_state_currentStep s t oS oC, fun ht => ?_, fun ht => ?_, fun ht => ?_⟩
    · subst ht
      rcases hres : s.result with _ | sp
      · exact absurd (Or.inl (by simp [hres])) he
      · simp
    · subst ht
      rcases hsv : s.survey with _ | sv
      · exact absurd (Or.inr (Or.inl (by simp [hsv]))) he
      · simp
    · rcases hco : s.cohort with _ | co
      · rcases ht with ht | ht <;> subst ht
        · exact absurd (Or.inr (Or.inr (Or.inl ⟨rfl, by simp [hco]⟩))) he
        · exact absurd (Or.inr (Or.inr (Or.inr ⟨rfl, by simp [hco]⟩))) he
      · simp
  · cases o <;> rfl
  · simp only [stepFn, handleUpdateSpec]
    repeat' split
    all_goals rfl
  · simp only [stepFn, handleUpdateQuestions]
    repeat' split
    all_goals rfl
  · simp only [stepFn, handleUpdateCohort]
    repeat' split
    all_goals rfl

/-- C2 amended, witness. -/
theorem c2_amended_witness :
    (stepFn { initState with result := some sp0 } (.approve (.ok sv0))).state.currentStep =
      stageSucc ({ initState with result := some sp0 } : AppState).currentStep :=
  (c2_amended { initState with result := some sp0 }).1 (.ok sv0) (by decide)

/-- C3 as amended: with the current stage's artifact present, Approve sets
`current_stage` to exactly the next stage and, when the entered stage's
artifact slot is empty, invokes that stage's executor using the framing
`SurveySpec` artifact as input (for the framing approval this is the
current stage's artifact; for the survey approval it is not the survey
artifact), storing the returned artifact as the new awaiting-approval
artifact; approving the cohort stage performs no executor call
(distribution is a stub). -/
theorem c3_amended (s : AppState) :
    (∀ oS sp, enabledB s (.approve oS) = true → s.result = some sp →
      s.survey = none → s.loadingSurvey = false →
      (stepFn s (.approve oS)).state.currentStep = .survey ∧
      (stepFn s (.approve oS)).calls = [Call.surveyQuestionsGen sp] ∧
      (∀ d, oS = .ok d → (stepFn s (.approve oS)).state.survey = some d ∧
        (stepFn s (.approve oS)).produced = [ArtifactVal.survey d])) ∧
    (∀ oC sp, enabledB s (.approveSurvey oC) = true → s.result = some sp →
      s.cohort = none → s.loadingCohort = false →
      (stepFn s (.approveSurvey oC)).state.currentStep = .cohort ∧
      (stepFn s (.approveSurvey oC)).calls = [Call.cohortGen sp] ∧
      (∀ d, oC = .ok d → (stepFn s (.approveSurvey oC)).state.cohort = some d ∧
        (stepFn s (.approveSurvey oC)).produced = [ArtifactVal.cohort d])) ∧
    (enabledB s .approveCohort = true →
      (stepFn s .approveCohort).state.currentStep = .distribution ∧
      (stepFn s .approveCohort).calls = [] ∧
      (stepFn s .approveCohort).produced = []) := by
  refine ⟨fun oS sp he hres hsv hls => ?_, fun oC sp he hres hco hlc => ?_, fun he => ?_⟩
  · simp only [enabledB, decide_eq_true_eq] at he
    have hstep : stepFn s (.approve oS) =
        generateSurveyQuestions { s with currentStep := .survey } oS := by
      simp only [stepFn, handleApprove, setStep, stepEffects]
      rw [if_neg (by simp [he.1]), if_neg (by simp),
        if_pos (by simp [hres, hsv, hls])]
    rcases oS with d | m <;>
      simp [hstep, generateSurveyQuestions, hres]
  · simp only [enabledB, decide_eq_true_eq] at he
    have hstep : stepFn s (.approveSurvey oC) =
        generateCohortCriteria { s with currentStep := .cohort } oC := by
      simp only [stepFn, handleApproveSurvey, setStep, stepEffects]
      rw [if_neg (by simp [he.1]), if_neg (by simp), if_neg (by simp),
        if_pos (by simp [hres, hco, hlc])]
    rcases oC with d | m <;>
      simp [hstep, generateCohortCriteria, hres]
  · simp only [enabledB, decide_eq_true_eq] at he
    have hstep : stepFn s .approveCohort =
        ⟨{ s with currentStep := .distribution }, [], []⟩ := by
      simp only [stepFn, handleApproveCohort, setStep, stepEffects]
      rw [if_neg (by simp [he.1]), if_neg (by simp), if_neg (by simp), if_neg (by simp)]
    simp [hstep]

/-- C3 amended, witness. -/
theorem c3_amended_witness :
    (stepFn { initState with result := some sp0 } (.approve (.ok sv0))).state.currentStep =
      Step.survey ∧
    (stepFn { initState with result := some sp0 } (.approve (.ok sv0))).calls =
      [Call.surveyQuestionsGen sp0] ∧
    (∀ d, (FetchOutcome.ok sv0 : FetchOutcome Survey) = .ok d →
      (stepFn { initState with result := some sp0 } (.approve (.ok sv0))).state.survey =
        some d ∧
      (stepFn { initState with result := some sp0 } (.approve (.ok sv0))).produced =
        [ArtifactVal.survey d]) :=
  (c3_amended { initState with result := some sp0 }).1 (.ok sv0) sp0 (by decide)
    rfl rfl rfl

/-- C5, counterexample: `handleSubmit` clears `result` and `survey` before
the fetch, so when the regeneration call fails the previously stored spec
artifact is lost — the state after the failed operation is not the state
before it. -/
theorem c5_counterexample :
    validTraceB (c5Trace ++ [.submit (.err "boom")]) = true ∧
    (runTrace c5Trace).1.result = some sp0 ∧
    (stepFn (runTrace c5Trace).1 (.submit (.err "boom"))).state.result = none ∧
    (stepFn (runTrace c5Trace).1 (.submit (.err "boom"))).state ≠ (runTrace c5Trace).1 := by
  decide

/-- C6, counterexample: navigating back to framing resets every hook except
the research-question text, so the resulting state is not the exact initial
state. -/
theorem c6_counterexample :
    validTraceB c6Trace = true ∧
    (runTrace c6Trace).1 = { initState with question := "q" } ∧
    (runTrace c6Trace).1 ≠ initState := by decide

/-- C6 as amended: navigating to framing from any other stage performs a
full pipeline reset — the resulting state is the initial state except that
the framing research-question text is preserved — with no dependency call
and no artifact committed. -/
theorem c6_amended (s : AppState) (oS : FetchOutcome Survey) (oC : FetchOutcome Cohort)
    (h : s.currentStep ≠ .framing) :
    stepFn s (.stepClick .framing oS oC) =
      ⟨{ initState with question := s.question }, [], []⟩ := by
  simp only [stepFn, setStep, stepEffects]
  rw [if_neg (fun hh => h hh.symm)]
  simp [resetFraming, initState]

/-- C6 amended, witness. -/
theorem c6_amended_witness :
    stepFn { initState with question := "q", currentStep := .survey }
        (.stepClick .framing unusedSurvey unusedCohort) =
      ⟨{ initState with question := "q" }, [], []⟩ :=
  c6_amended { initState with question := "q", currentStep := .survey }
    unusedSurvey unusedCohort (by decide)

/-- C9: a revision operation whose feedback is empty or all-whitespace, or
whose stage has no prior artifact, is a no-op: no dependency call is made,
no artifact committed, and the whole state is unchanged (the early-return
guards of `handleUpdateSpec`, `handleUpdateQuestions`,
`handleUpdateCohort`). -/
theorem c9_revise_noop (s : AppState) :
    (∀ o : FetchOutcome SurveySpec,
      s.result = none ∨ s.changes.toList.all isJsWhitespace = true →
      stepFn s (.updateSpec o) = ⟨s, [], []⟩) ∧
    (∀ o : FetchOutcome Survey,
      s.result = none ∨ s.survey = none ∨
        s.questionChanges.toList.all isJsWhitespace = true →
      stepFn s (.updateQuestions o) = ⟨s, [], []⟩) ∧
    (∀ o : FetchOutcome Cohort,
      s.result = none ∨ s.cohort = none ∨
        s.cohortChanges.toList.all isJsWhitespace = true →
      stepFn s (.updateCohort o) = ⟨s, [], []⟩) := by
  refine ⟨fun o h => ?_, fun o h => ?_, fun o h => ?_⟩
  · rcases h with h | h
    · simp [stepFn, handleUpdateSpec, h]
    · cases hres : s.result with
      | none => simp [stepFn, handleUpdateSpec, hres]
      | some sp => simp [stepFn, handleUpdateSpec, hres, jsTrim_eq_empty_of_all_ws _ h]
  · rcases h with h | h | h
    · simp [stepFn, handleUpdateQuestions, h]
    · cases hres : s.result with
      | none => simp [stepFn, handleUpdateQuestions, hres]
      | some sp => simp [stepFn, handleUpdateQuestions, hres, h]
    · cases hres : s.result with
      | none => simp [stepFn, handleUpdateQuestions, hres]
      | some sp =>
        cases hsv : s.survey with
        | none => simp [stepFn, handleUpdateQuestions, hres, hsv]
        | some sv =>
          simp [stepFn, handleUpdateQuestions, hres, hsv,
            jsTrim_eq_empty_of_all_ws _ h]
  · rcases h with h | h | h
    · simp [stepFn, handleUpdateCohort, h]
    · cases hres : s.result with
      | none => simp [stepFn, handleUpdateCohort, hres]
      | some sp => simp [stepFn, handleUpdateCohort, hres, h]
    · cases hres : s.result with
      | none => simp [stepFn, handleUpdateCohort, hres]
      | some sp =>
        cases hch : s.cohort with
        | none => simp [stepFn, handleUpdateCohort, hres, hch]
        | some ch =>
          simp [stepFn, handleUpdateCohort, hres, hch,
            jsTrim_eq_empty_of_all_ws _ h]

/-- C4: a revision with a prior artifact and nonempty trimmed feedback
re-invokes the stage's executor with the prior artifact and the feedback in
the request body, replaces the prior artifact with the returned one (every
other hook unchanged, so `current_stage` and the awaiting-approval
situation persist), commits exactly one new artifact, and bumps that
stage's revision counter by one; the prior artifact is not mutated — it is
still the value carried by the issued call, and replacement of the slot is
the only update. -/
theorem c4_revise (s : AppState) (rv : RevCounters) :
    (∀ sp d, s.result = some sp → jsTrim s.changes ≠ "" →
      stepFn s (.updateSpec (.ok d)) =
        ⟨{ s with updateLoading := false, updateError := none,
                  result := some d, changes := "" },
         [Call.surveySpecUpdate sp s.changes], [ArtifactVal.spec d]⟩ ∧
      revStep s (.updateSpec (.ok d)) rv = { rv with specRev := rv.specRev + 1 }) ∧
    (∀ sp sv d, s.result = some sp → s.survey = some sv →
      jsTrim s.questionChanges ≠ "" →
      stepFn s (.updateQuestions (.ok d)) =
        ⟨{ s with updateQuestionsLoading := false, updateQuestionsError := none,
                  survey := some d, questionChanges := "" },
         [Call.surveyQuestionsUpdate sp sv s.questionChanges],
         [ArtifactVal.survey d]⟩ ∧
      revStep s (.updateQuestions (.ok d)) rv =
        { rv with surveyRev := rv.surveyRev + 1 }) ∧
    (∀ sp ch d, s.result = some sp → s.cohort = some ch →
      jsTrim s.cohortChanges ≠ "" →
      stepFn s (.updateCohort (.ok d)) =
        ⟨{ s with updateCohortLoading := false, updateCohortError := none,
                  cohort := some d, cohortChanges := "" },
         [Call.cohortUpdate sp ch s.cohortChanges], [ArtifactVal.cohort d]⟩ ∧
      revStep s (.updateCohort (.ok d)) rv =
        { rv with cohortRev := rv.cohortRev + 1 }) := by
  refine ⟨fun sp d hres hch => ?_, fun sp sv d hres hsv hch => ?_,
          fun sp ch d hres hco hch => ?_⟩
  · have hstep : stepFn s (.updateSpec (.ok d)) =
        ⟨{ s with updateLoading := false, updateError := none,
                  result := some d, changes := "" },
         [Call.surveySpecUpdate sp s.changes], [ArtifactVal.spec d]⟩ := by
      simp [stepFn, handleUpdateSpec, hres, hch]
    refine ⟨hstep, ?_⟩
    by_cases hf : s.currentStep = .framing <;>
      simp [revStep, hstep, hf, prodCount]
  · have hstep : stepFn s (.updateQuestions (.ok d)) =
        ⟨{ s with updateQuestionsLoading := false, updateQuestionsError := none,
                  survey := some d, questionChanges := "" },
         [Call.surveyQuestionsUpdate sp sv s.questionChanges],
         [ArtifactVal.survey d]⟩ := by
      simp [stepFn, handleUpdateQuestions, hres, hsv, hch]
    refine ⟨hstep, ?_⟩
    by_cases hf : s.currentStep = .framing <;>
      simp [revStep, hstep, hf, prodCount]
  · have hstep : stepFn s (.updateCohort (.ok d)) =
        ⟨{ s with updateCohortLoading := false, updateCohortError := none,
                  cohort := some d, cohortChanges := "" },
         [Call.cohortUpdate sp ch s.cohortChanges], [ArtifactVal.cohort d]⟩ := by
      simp [stepFn, handleUpdateCohort, hres, hco, hch]
    refine ⟨hstep, ?_⟩
    by_cases hf : s.currentStep = .framing <;>
      simp [revStep, hstep, hf, prodCount]

/-- C4, witness. -/
theorem c4_revise_witness :
    stepFn { initState with result := some sp0, changes := "improve" }
        (.updateSpec (.ok sp1)) =
      ⟨{ initState with result := some sp1, changes := "",
                        updateLoading := false, updateError := none },
       [Call.surveySpecUpdate sp0 "improve"], [ArtifactVal.spec sp1]⟩ ∧
    revStep { initState with result := some sp0, changes := "improve" }
        (.updateSpec (.ok sp1)) ⟨2, 1, 0⟩ = ⟨3, 1, 0⟩ :=
  (c4_revise { initState with result := some sp0, changes := "improve" }
    ⟨2, 1, 0⟩).1 sp0 sp1 rfl (by decide)

/-- C5 as amended: any failed revision call, and any failed stage-entry
generation call, leaves `current_stage` and every stored artifact
unchanged, commits no artifact, and only surfaces the error message (so the
same operation can be retried without side effects); the initial spec
generation (`handleSubmit`) however clears the prior spec and survey
artifacts before the fetch, so after its failure `result` and `survey` are
null rather than their prior values. -/
theorem c5_amended (s : AppState) (m : String) :
    (∀ sp, s.result = some sp → jsTrim s.changes ≠ "" →
      stepFn s (.updateSpec (.err m)) =
        ⟨{ s with updateLoading := false, updateError := some m },
         [Call.surveySpecUpdate sp s.changes], []⟩) ∧
    (∀ sp sv, s.result = some sp → s.survey = some sv →
      jsTrim s.questionChanges ≠ "" →
      stepFn s (.updateQuestions (.err m)) =
        ⟨{ s with updateQuestionsLoading := false, updateQuestionsError := some m },
         [Call.surveyQuestionsUpdate sp sv s.questionChanges], []⟩) ∧
    (∀ sp ch, s.result = some sp → s.cohort = some ch →
      jsTrim s.cohortChanges ≠ "" →
      stepFn s (.updateCohort (.err m)) =
        ⟨{ s with updateCohortLoading := false, updateCohortError := some m },
         [Call.cohortUpdate sp ch s.cohortChanges], []⟩) ∧
    (∀ sp oC, s.currentStep ≠ .survey → s.result = some sp → s.survey = none →
      s.loadingSurvey = false →
      stepFn s (.stepClick .survey (.err m) oC) =
        ⟨{ s with currentStep := .survey, error := some m, loadingSurvey := false },
         [Call.surveyQuestionsGen sp], []⟩) ∧
    (∀ sp oS, s.currentStep ≠ .cohort → s.result = some sp → s.cohort = none →
      s.loadingCohort = false →
      stepFn s (.stepClick .cohort oS (.err m)) =
        ⟨{ s with currentStep := .cohort, error := some m, loadingCohort := false },
         [Call.cohortGen sp], []⟩) ∧
    (stepFn s (.submit (.err m)) =
      ⟨{ s with loading := false, result := none, survey := none,
                error := some m, updateError := none },
       [Call.surveySpecGen s.question], []⟩) := by
  refine ⟨fun sp hres hch => ?_, fun sp sv hres hsv hch => ?_,
          fun sp ch hres hco hch => ?_, fun sp oC hcur hres hsv hls => ?_,
          fun sp oS hcur hres hco hlc => ?_, ?_⟩
  · simp [stepFn, handleUpdateSpec, hres, hch]
  · simp [stepFn, handleUpdateQuestions, hres, hsv, hch]
  · simp [stepFn, handleUpdateCohort, hres, hco, hch]
  · simp only [stepFn, setStep]
    rw [if_neg (fun hh => hcur hh.symm)]
    simp [stepEffects, generateSurveyQuestions, hres, hsv, hls]
  · simp only [stepFn, setStep]
    rw [if_neg (fun hh => hcur hh.symm)]
    simp [stepEffects, generateCohortCriteria, hres, hco, hlc]
  · simp [stepFn, handleSubmit]

/-- C5 amended, witness. -/
theorem c5_amended_witness :
    stepFn { initState with result := some sp0, changes := "c" }
        (.updateSpec (.err "boom")) =
      ⟨{ initState with result := some sp0, changes := "c",
                        updateLoading := false, updateError := some "boom" },
       [Call.surveySpecUpdate sp0 "c"], []⟩ :=
  (c5_amended { initState with result := some sp0, changes := "c" } "boom").1
    sp0 rfl (by decide)

/-- C9, witness. -/
theorem c9_revise_noop_witness :
    stepFn { initState with result := some sp0, changes := "  \t " }
        (.updateSpec (.ok sp1)) =
      ⟨{ initState with result := some sp0, changes := "  \t " }, [], []⟩ :=
  (c9_revise_noop { initState with result := some sp0, changes := "  \t " }).1
    (.ok sp1) (.inr (by decide))

/-- Successive failures accumulate the failure count and never alter the
breaker's configuration. -/
theorem applyFailures_preserves (ts : List Nat) :
    ∀ cb : CircuitBreaker,
      (applyFailures cb ts).consecutiveFailures = cb.consecutiveFailures + ts.length ∧
      (applyFailures cb ts).failureThreshold = cb.failureThreshold ∧
      (applyFailures cb ts).openDuration = cb.openDuration := by
  induction ts with
  | nil => intro cb; simp [applyFailures]
  | cons t ts ih =>
    intro cb
    have h := ih (onFailure cb t)
    have hone : (onFailure cb t).consecutiveFailures = cb.consecutiveFailures + 1 ∧
        (onFailure cb t).failureThreshold = cb.failureThreshold ∧
        (onFailure cb t).openDuration = cb.openDuration := by
      simp only [onFailure]
      split <;> simp
    obtain ⟨ha, hb, hc⟩ := h
    obtain ⟨ga, gb, gc⟩ := hone
    simp only [applyFailures, List.foldl_cons, List.length_cons] at ha hb hc ⊢
    refine ⟨?_, ?_, ?_⟩
    · omega
    · rw [hb, gb]
    · rw [hc, gc]

/-- C7: once a sequence of `on_failure()` calls reaches
`failure_threshold`, the breaker is `open` with `opened_at` stamped at the
last failure; `allow()` returns `false` strictly before
`opened_at + open_duration`, and once that instant is reached it returns
`true` exactly once — the transition to `half_open` — after which further
`allow()` calls return `false` until the next transition is recorded. -/
theorem c7_breaker_opens (threshold duration : Nat) (ts : List Nat) (tl t u : Nat)
    (cb : CircuitBreaker)
    (hcb : cb = applyFailures (initBreaker threshold duration) (ts ++ [tl]))
    (_hpos : 1 ≤ threshold) (h2 : threshold ≤ ts.length + 1) :
    cb.state = .opened ∧ cb.openedAt = some tl ∧
    (t < tl + duration → (allow cb t).1 = false) ∧
    (tl + duration ≤ t →
      (allow cb t).1 = true ∧ (allow cb t).2.state = .halfOpen ∧
      (allow (allow cb t).2 u).1 = false) := by
  have hpre := applyFailures_preserves ts (initBreaker threshold duration)
  have hsplit : cb = onFailure (applyFailures (initBreaker threshold duration) ts) tl := by
    rw [hcb]
    simp [applyFailures]
  have hth : threshold ≤
      (applyFailures (initBreaker threshold duration) ts).consecutiveFailures + 1 := by
    rw [hpre.1]
    simp only [initBreaker]
    omega
  have hopen : cb.state = .opened ∧ cb.openedAt = some tl ∧ cb.openDuration = duration := by
    rw [hsplit]
    simp only [onFailure]
    rw [if_pos (Or.inl (by rw [hpre.2.1]; simpa [initBreaker] using hth))]
    simpa using hpre.2.2
  refine ⟨hopen.1, hopen.2.1, fun hlt => ?_, fun hge => ?_⟩
  · simp only [allow, hopen.1, hopen.2.1]
    rw [hopen.2.2]
    simp [Nat.not_le.mpr hlt]
  · simp only [allow, hopen.1, hopen.2.1]
    rw [hopen.2.2, if_pos hge]
    simp [allow]

/-- C10: entering the survey-design or cohort-selection stage (through the
workflow pane or an Approve action) triggers that stage's generation call
if and only if the stage's artifact is absent and no generation is in
flight; re-entering a stage whose artifact already exists performs no
dependency call, commits nothing, and leaves the existing artifact
unchanged. -/
theorem c10_entry_generation (s : AppState) (hr : Reachable s) :
    (∀ oS oC, enabledB s (.stepClick .survey oS oC) = true → s.currentStep ≠ .survey →
      ((stepFn s (.stepClick .survey oS oC)).calls ≠ [] ↔
        s.survey = none ∧ s.loadingSurvey = false) ∧
      (∀ sv, s.survey = some sv →
        (stepFn s (.stepClick .survey oS oC)).state.survey = some sv ∧
        (stepFn s (.stepClick .survey oS oC)).calls = [] ∧
        (stepFn s (.stepClick .survey oS oC)).produced = [])) ∧
    (∀ oS oC, enabledB s (.stepClick .cohort oS oC) = true → s.currentStep ≠ .cohort →
      ((stepFn s (.stepClick .cohort oS oC)).calls ≠ [] ↔
        s.cohort = none ∧ s.loadingCohort = false) ∧
      (∀ ch, s.cohort = some ch →
        (stepFn s (.stepClick .cohort oS oC)).state.cohort = some ch ∧
        (stepFn s (.stepClick .cohort oS oC)).calls = [] ∧
        (stepFn s (.stepClick .cohort oS oC)).produced = [])) ∧
    (∀ oS, enabledB s (.approve oS) = true →
      ((stepFn s (.approve oS)).calls ≠ [] ↔
        s.survey = none ∧ s.loadingSurvey = false)) ∧
    (∀ oC, enabledB s (.approveSurvey oC) = true →
      ((stepFn s (.approveSurvey oC)).calls ≠ [] ↔
        s.cohort = none ∧ s.loadingCohort = false) ∧
      (∀ ch, s.cohort = some ch →
        (stepFn s (.approveSurvey oC)).state.cohort = some ch ∧
        (stepFn s (.approveSurvey oC)).calls = [] ∧
        (stepFn s (.approveSurvey oC)).produced = [])) := by
  have hInv := reachable_inv s hr
  refine ⟨fun oS oC he hcur => ?_, fun oS oC he hcur => ?_, fun oS he => ?_,
          fun oC he => ?_⟩
  · simp only [enabledB, decide_eq_true_eq] at he
    have hres : s.result.isSome = true := by
      rcases hres : s.result with _ | sp
      · exact absurd (Or.inl (by simp [hres])) he
      · simp
    obtain ⟨sp, hsp⟩ := Option.isSome_iff_exists.mp hres
    constructor
    · simp only [stepFn]
      rcases hsv : s.survey with _ | sv
      · rcases hls : s.loadingSurvey
        · rw [setStep_survey_gen s oS oC hcur hsv hls hres]
          rcases oS with d | m <;>
            simp [generateSurveyQuestions, hsp, hsv, hls]
        · rw [setStep_survey_noGen s oS oC hcur (Or.inr hls)]
          simp [hls]
      · rw [setStep_survey_noGen s oS oC hcur (Or.inl (by simp [hsv]))]
        simp
    · intro sv hsv
      simp only [stepFn]
      rw [setStep_survey_noGen s oS oC hcur (Or.inl (by simp [hsv]))]
      exact ⟨hsv, rfl, rfl⟩
  · simp only [enabledB, decide_eq_true_eq] at he
    have hsvSome : s.survey.isSome = true := by
      rcases hsv : s.survey with _ | sv
      · exact absurd (Or.inr (Or.inl (by simp [hsv]))) he
      · simp
    have hres : s.result.isSome = true := hInv.1 hsvSome
    obtain ⟨sp, hsp⟩ := Option.isSome_iff_exists.mp hres
    constructor
    · simp only [stepFn]
      rcases hco : s.cohort with _ | ch
      · rcases hlc : s.loadingCohort
        · rw [setStep_cohort_gen s oS oC hcur hco hlc hres]
          rcases oC with d | m <;>
            simp [generateCohortCriteria, hsp, hco, hlc]
        · rw [setStep_cohort_noGen s oS oC hcur (Or.inr hlc)]
          simp [hlc]
      · rw [setStep_cohort_noGen s oS oC hcur (Or.inl (by simp [hco]))]
        simp
    · intro ch hco
      simp only [stepFn]
      rw [setStep_cohort_noGen s oS oC hcur (Or.inl (by simp [hco]))]
      exact ⟨hco, rfl, rfl⟩
  · simp only [enabledB, decide_eq_true_eq] at he
    have hcur : s.currentStep ≠ .survey := by simp [he.1]
    have hsv : s.survey = none := (hInv.2.2 he.1).1
    obtain ⟨sp, hsp⟩ := Option.isSome_iff_exists.mp he.2
    simp only [stepFn, handleApprove]
    rcases hls : s.loadingSurvey
    · rw [setStep_survey_gen s oS unusedCohort hcur hsv hls he.2]
      rcases oS with d | m <;>
        simp [generateSurveyQuestions, hsp, hsv, hls]
    · rw [setStep_survey_noGen s oS unusedCohort hcur (Or.inr hls)]
      simp [hls]
  · simp only [enabledB, decide_eq_true_eq] at he
    have hcur : s.currentStep ≠ .cohort := by simp [he.1]
    have hres : s.result.isSome = true := hInv.1 he.2.2
    obtain ⟨sp, hsp⟩ := Option.isSome_iff_exists.mp hres
    constructor
    · simp only [stepFn, handleApproveSurvey]
      rcases hco : s.cohort with _ | ch
      · rcases hlc : s.loadingCohort
        · rw [setStep_cohort_gen s unusedSurvey oC hcur hco hlc hres]
          rcases oC with d | m <;>
            simp [generateCohortCriteria, hsp, hco, hlc]
        · rw [setStep_cohort_noGen s unusedSurvey oC hcur (Or.inr hlc)]
          simp [hlc]
      · rw [setStep_cohort_noGen s unusedSurvey oC hcur (Or.inl (by simp [hco]))]
        simp
    · intro ch hco
      simp only [stepFn, handleApproveSurvey]
      rw [setStep_cohort_noGen s unusedSurvey oC hcur (Or.inl (by simp [hco]))]
      exact ⟨hco, rfl, rfl⟩

/-- The concrete state `sSurveyStage` is reachable. -/
theorem sSurveyStage_reachable : Reachable sSurveyStage := by
  have r1 := Reachable.step initState (.setQuestion "q") Reachable.init (by decide)
  have r2 := Reachable.step _ (.submit (.ok sp0)) r1 (by decide)
  have r3 := Reachable.step _ (.approve (.ok sv0)) r2 (by decide)
  have heq : (stepFn (stepFn (stepFn initState (.setQuestion "q")).state
      (.submit (.ok sp0))).state (.approve (.ok sv0))).state = sSurveyStage := by decide
  exact heq ▸ r3

/-- C10, witness. -/
theorem c10_entry_generation_witness :
    ((stepFn sSurveyStage (.approveSurvey (.ok ch0))).calls ≠ [] ↔
      sSurveyStage.cohort = none ∧ sSurveyStage.loadingCohort = false) ∧
    (∀ ch, sSurveyStage.cohort = some ch →
      (stepFn sSurveyStage (.approveSurvey (.ok ch0))).state.cohort = some ch ∧
      (stepFn sSurveyStage (.approveSurvey (.ok ch0))).calls = [] ∧
      (stepFn sSurveyStage (.approveSurvey (.ok ch0))).produced = []) :=
  (c10_entry_generation sSurveyStage sSurveyStage_reachable).2.2.2 (.ok ch0) (by decide)

/-- C7, witness. -/
theorem c7_breaker_opens_witness :
    (applyFailures (initBreaker 3 10) [0, 1, 2]).state = .opened ∧
    (applyFailures (initBreaker 3 10) [0, 1, 2]).openedAt = some 2 ∧
    (5 < 2 + 10 → (allow (applyFailures (initBreaker 3 10) [0, 1, 2]) 5).1 = false) ∧
    (2 + 10 ≤ 5 →
      (allow (applyFailures (initBreaker 3 10) [0, 1, 2]) 5).1 = true ∧
      (allow (applyFailures (initBreaker 3 10) [0, 1, 2]) 5).2.state = .halfOpen ∧
      (allow (allow (applyFailures (initBreaker 3 10) [0, 1, 2]) 5).2 20).1 = false) :=
  c7_breaker_opens 3 10 [0, 1] 2 5 20 _ rfl (by decide) (by decide)

/-- One-step unfolding of the retry loop in the positive-fuel case. -/
theorem executeAux_succ {α : Type} (op : Nat → Except ErrorKind α)
    (retryable : ErrorKind → Bool) (idx fuel : Nat) :
    executeAux op retryable idx (fuel + 1) =
      match op idx with
      | .ok v => .ok v (idx + 1)
      | .error e =>
        if retryable e then
          match fuel with
          | 0 => RetryResult.retriesExhausted (idx + 1) e
          | f + 1 => executeAux op retryable (idx + 1) (f + 1)
        else .failed e (idx + 1) := by
  conv_lhs => unfold executeAux

/-- An always-failing retryable operation exhausts the whole remaining
budget, counting every attempt. -/
theorem executeAux_exhausts {α : Type} (op : Nat → Except ErrorKind α) (e : ErrorKind)
    (hop : ∀ i, op i = .error e) (hr : retryableB e = true) :
    ∀ fuel idx, executeAux op retryableB idx (fuel + 1) =
      .retriesExhausted (idx + fuel + 1) e := by
  intro fuel
  induction fuel with
  | zero =>
    intro idx
    rw [executeAux_succ, hop idx]
    simp [hr]
  | succ f ih =>
    intro idx
    rw [executeAux_succ, hop idx]
    simp only [hr, if_true]
    rw [ih (idx + 1)]
    congr 1
    omega

/-- C8: with `max_attempts = N ≥ 1`, an operation that always fails with a
retryable error kind is attempted exactly `N` times and then surfaces
`RetriesExhaustedError` with attempt count `N` and the last error; an
operation failing with a non-retryable kind short-circuits after exactly
one attempt regardless of `N`. -/
theorem c8_retry_attempts {α : Type} (op : Nat → Except ErrorKind α) (e : ErrorKind)
    (N : Nat) (h1 : 1 ≤ N) (hop : ∀ i, op i = .error e) :
    (retryableB e = true → execute op N = .retriesExhausted N e) ∧
    (retryableB e = false → execute op N = .failed e 1) := by
  obtain ⟨m, rfl⟩ : ∃ m, N = m + 1 := ⟨N - 1, by omega⟩
  constructor
  · intro hr
    have := executeAux_exhausts op e hop hr m 0
    simpa [execute] using this
  · intro hnr
    rw [show execute op (m + 1) = executeAux op retryableB 0 (m + 1) from rfl,
      executeAux_succ, hop 0]
    simp [hnr]

/-- C8, witness. -/
theorem c8_retry_attempts_witness :
    (retryableB .timeout = true →
      execute (fun _ => (Except.error .timeout : Except ErrorKind Nat)) 3 =
        .retriesExhausted 3 .timeout) ∧
    (retryableB .timeout = false →
      execute (fun _ => (Except.error .timeout : Except ErrorKind Nat)) 3 =
        .failed .timeout 1) :=
  c8_retry_attempts (fun _ => (Except.error .timeout : Except ErrorKind Nat)) .timeout 3
    (by decide) (fun _ => rfl)

end SurveyKong
